import Mathlib

/-
Verification development for the U-TITAN unrolled network
(`src/TITAN_Unrolled/model.py`).

The tensors W, C, Rx are modelled as real-valued arrays indexed by their
shape classes ([N,N,K] for W, [K,K,N] for C and Rx).  The elementary
numerical primitives (gradients, proximal operators, spectral norm,
Lipschitz helper) live in the excluded `functions`/`tools` modules; they
are abstracted as a bundle of function parameters (`Prims`), exactly at
the interface the core consumes (spec section 6).  `.clone()` produces a
value-identical independent copy, so in this functional embedding it is
the identity.  A Python function that can fall off the end of a loop and
return `None`, or raise on an out-of-range index, is modelled with
`Option`.
-/

noncomputable section

namespace UTitan

/-- W (unmixing-matrix estimate): shape class [N, N, K]. -/
abbrev WTensor (K N : ℕ) := Fin N → Fin N → Fin K → ℝ

/-- C (source covariance estimate): shape class [K, K, N]. -/
abbrev CTensor (K N : ℕ) := Fin K → Fin K → Fin N → ℝ

/-- Rx (observed covariance): shape class [K, K, N]. -/
abbrev RTensor (K N : ℕ) := Fin K → Fin K → Fin N → ℝ

/-- The external numerical primitives imported from the excluded
`functions`/`tools` modules (`from functions import *`), at the exact
interface the core consumes. -/
structure Prims (K N : ℕ) where
  grad_H_W : WTensor K N → CTensor K N → RTensor K N → WTensor K N
  prox_f : WTensor K N → ℝ → WTensor K N
  grad_H_C_reg : WTensor K N → CTensor K N → RTensor K N → ℝ → CTensor K N
  prox_g : CTensor K N → ℝ → ℝ → CTensor K N
  spectral_norm_extracted : RTensor K N → ℕ → ℕ → ℝ
  lipschitz : CTensor K N → ℝ → ℝ

variable {K N : ℕ}

/-- Class `W_iter`: holds the configured number of W sub-steps. -/
structure W_iter where
  N_updates_W : ℕ

/-- Method `W_iter.inertial_step`: `W = W + beta_w * (W - W_old)`. -/
def W_iter.inertial_step (beta_w : ℝ) (W W_old : WTensor K N) : WTensor K N :=
  W + beta_w • (W - W_old)

/-- Method `W_iter.gradient_step`: `W = W - c_w * grad_H_W(W, C, Rx)`. -/
def W_iter.gradient_step (P : Prims K N) (Rx : RTensor K N) (c_w : ℝ)
    (W : WTensor K N) (C : CTensor K N) : WTensor K N :=
  W - c_w • P.grad_H_W W C Rx

/-- Method `W_iter.prox_step`: `prox_f(W, c_w)`. -/
def W_iter.prox_step (P : Prims K N) (c_w : ℝ) (W : WTensor K N) : WTensor K N :=
  P.prox_f W c_w

/-- Method `W_iter.update`: one sub-step on W.  Returns the new W and the
re-snapshotted `W_old` (the pre-step W, via `W_old = W.clone()`). -/
def W_iter.update (P : Prims K N) (Rx : RTensor K N) (W W_old : WTensor K N)
    (C : CTensor K N) (c_w beta_w : ℝ) : WTensor K N × WTensor K N :=
  let W_inertial := W_iter.inertial_step beta_w W W_old
  let W_old' := W
  let W_gradient := W_iter.gradient_step P Rx c_w W_inertial C
  let W_prox := W_iter.prox_step P c_w W_gradient
  (W_prox, W_old')

/-- The `for _ in range(n)` loop of `W_iter.forward`, acting on the pair
`(W, W_old)`. -/
def W_iter.loop (P : Prims K N) (Rx : RTensor K N) (C : CTensor K N)
    (c_w beta_w : ℝ) : ℕ → WTensor K N × WTensor K N → WTensor K N × WTensor K N
  | 0, s => s
  | n + 1, s => W_iter.loop P Rx C c_w beta_w n (W_iter.update P Rx s.1 s.2 C c_w beta_w)

/-- Method `W_iter.forward`: `W_old = W.clone()`, then `N_updates_W`
sub-steps, returning the final W. -/
def W_iter.forward (self : W_iter) (P : Prims K N) (Rx : RTensor K N)
    (W : WTensor K N) (C : CTensor K N) (c_w beta_w : ℝ) : WTensor K N :=
  (W_iter.loop P Rx C c_w beta_w self.N_updates_W (W, W)).1

/-- Class `C_iter`: holds the configured number of C sub-steps. -/
structure C_iter where
  N_updates_C : ℕ

/-- Method `C_iter.inertial_step`: `C = C + beta_c * (C - C_old)`. -/
def C_iter.inertial_step (beta_c : ℝ) (C C_old : CTensor K N) : CTensor K N :=
  C + beta_c • (C - C_old)

/-- Method `C_iter.gradient_step`: `C = C - c_c * grad_H_C_reg(W, C, Rx, alpha)`. -/
def C_iter.gradient_step (P : Prims K N) (Rx : RTensor K N) (c_c : ℝ)
    (C : CTensor K N) (W : WTensor K N) (alpha : ℝ) : CTensor K N :=
  C - c_c • P.grad_H_C_reg W C Rx alpha

/-- Method `C_iter.prox_step`: `prox_g(C, c_c, eps)`. -/
def C_iter.prox_step (P : Prims K N) (c_c : ℝ) (C : CTensor K N) (eps : ℝ) :
    CTensor K N :=
  P.prox_g C c_c eps

/-- Method `C_iter.update`: one sub-step on C.  Returns the new C and the
re-snapshotted `C_old` (the pre-step C, via `C_old = C.clone()`). -/
def C_iter.update (P : Prims K N) (Rx : RTensor K N) (C C_old : CTensor K N)
    (W_updated : WTensor K N) (c_c beta_c alpha eps : ℝ) : CTensor K N × CTensor K N :=
  let C_inertial := C_iter.inertial_step beta_c C C_old
  let C_old' := C
  let C_gradient := C_iter.gradient_step P Rx c_c C_inertial W_updated alpha
  let C_prox := C_iter.prox_step P c_c C_gradient eps
  (C_prox, C_old')

/-- Method `C_iter.forward`: the source loop
`for _ in range(self.N_updates_C): C_old = C.clone(); C,C_old = self.update(...); return C,C_old`
returns from inside the loop body on the first iteration; when
`N_updates_C = 0` the loop body never runs and the Python function
returns `None`, modelled as `none`. -/
def C_iter.forward (self : C_iter) (P : Prims K N) (Rx : RTensor K N)
    (C : CTensor K N) (W_updated : WTensor K N) (c_c beta_c alpha eps : ℝ) :
    Option (CTensor K N × CTensor K N) :=
  match self.N_updates_C with
  | 0 => none
  | _ + 1 => some (C_iter.update P Rx C C W_updated c_c beta_c alpha eps)

/-- Class `Block`: one layer in U-TITAN.  The regularization predictor
`FCNN_alpha` (three fully-connected layers with Softplus) is abstracted
as the function it computes on (W, C), since no claim depends on its
internals; the five theory constants are fields. -/
structure Block (K N : ℕ) where
  NN_alpha : WTensor K N → CTensor K N → ℝ
  W_iter : W_iter
  C_iter : C_iter
  gamma_c : ℝ
  gamma_w : ℝ
  eps : ℝ
  nu : ℝ
  zeta : ℝ

/-- The `l_sup` intermediate of `Block.get_coefficients` (the shape
destructuring `K,_,N = C.shape` of the source is reflected by the type
indices K, N of `CTensor K N`). -/
def Block.l_sup (B : Block K N) (P : Prims K N) (Rx : RTensor K N) (alpha : ℝ) : ℝ :=
  max ((B.gamma_w * alpha) / (1 - B.gamma_w))
    (P.spectral_norm_extracted Rx K N * 2 * (K : ℝ) *
      (1 + Real.sqrt (2 / (alpha * B.gamma_c))))

/-- The `C0` intermediate of `Block.get_coefficients`:
`torch.min(torch.min(expr3, expr4), expr5)`. -/
def Block.C0 (B : Block K N) (P : Prims K N) (Rx : RTensor K N) (alpha : ℝ) : ℝ :=
  min (min (B.gamma_c ^ 2 / (K : ℝ) ^ 2)
      (alpha * B.gamma_w / ((1 + B.zeta) * (1 - B.gamma_w) * B.l_sup P Rx alpha)))
    (P.spectral_norm_extracted Rx K N / ((1 + B.zeta) * B.l_sup P Rx alpha))

/-- The `L_inf` intermediate of `Block.get_coefficients`. -/
def Block.L_inf (B : Block K N) (P : Prims K N) (Rx : RTensor K N) (alpha : ℝ) : ℝ :=
  (1 + B.zeta) * B.C0 P Rx alpha * B.l_sup P Rx alpha

/-- The Lipschitz surrogate `L_w` of `Block.get_coefficients`
(`L_w_prev` is this same expression applied to `C_old`). -/
def Block.L_w (B : Block K N) (P : Prims K N) (Rx : RTensor K N) (alpha : ℝ)
    (C : CTensor K N) : ℝ :=
  max (B.L_inf P Rx alpha) (P.lipschitz C (P.spectral_norm_extracted Rx K N))

/-- Method `Block.get_coefficients`, line for line from the source:
returns `(c_w, beta_w, c_c, beta_c)`. -/
def Block.get_coefficients (B : Block K N) (P : Prims K N) (Rx : RTensor K N)
    (alpha : ℝ) (C C_old : CTensor K N) : ℝ × ℝ × ℝ × ℝ :=
  let rho_Rx := P.spectral_norm_extracted Rx K N
  let l_sup := max ((B.gamma_w * alpha) / (1 - B.gamma_w))
    (rho_Rx * 2 * (K : ℝ) * (1 + Real.sqrt (2 / (alpha * B.gamma_c))))
  let expr3 := B.gamma_c ^ 2 / (K : ℝ) ^ 2
  let expr4 := alpha * B.gamma_w / ((1 + B.zeta) * (1 - B.gamma_w) * l_sup)
  let expr5 := rho_Rx / ((1 + B.zeta) * l_sup)
  let C0 := min (min expr3 expr4) expr5
  let L_inf := (1 + B.zeta) * C0 * l_sup
  let L_w_prev := max L_inf (P.lipschitz C_old rho_Rx)
  let L_w := max L_inf (P.lipschitz C rho_Rx)
  let c_w := B.gamma_w / L_w
  let beta_w := (1 - B.gamma_w) * Real.sqrt (C0 * B.nu * (1 - B.nu) * L_w_prev / L_w)
  let c_c := B.gamma_c / alpha
  let beta_c := Real.sqrt (C0 * B.nu * (1 - B.nu))
  (c_w, beta_w, c_c, beta_c)

/-- Method `Block.forward`: predict alpha, derive the coefficients,
update W (all sub-steps), then update C; the unpacking
`C_updated, C_old = self.C_iter(...)` fails when `C_iter.forward`
returns `None`, so the block's result is an `Option`. -/
def Block.forward (B : Block K N) (P : Prims K N) (Rx : RTensor K N)
    (W : WTensor K N) (C C_old : CTensor K N) :
    Option (WTensor K N × CTensor K N × CTensor K N) :=
  let alpha := B.NN_alpha W C
  let q := B.get_coefficients P Rx alpha C C_old
  let W_updated := B.W_iter.forward P Rx W C q.1 q.2.1
  match B.C_iter.forward P Rx C W_updated q.2.2.1 q.2.2.2 alpha B.eps with
  | some p => some (W_updated, p.1, p.2)
  | none => none

/-- Class `myModel`: owns the ordered `Layers` of blocks. -/
structure myModel (K N : ℕ) where
  Layers : List (Block K N)

/-- The `mode == 'test'` loop of `myModel.forward`: for each layer in
order, `C_old = C.clone()` then `W,C,C_old = Layers[i](Rx,W,C,C_old)`;
a failing block propagates (`none`). -/
def myModel.runTest (P : Prims K N) (Rx : RTensor K N) :
    List (Block K N) → WTensor K N × CTensor K N → Option (WTensor K N × CTensor K N)
  | [], p => some p
  | b :: bs, p =>
    match b.forward P Rx p.1 p.2 p.2 with
    | some t => myModel.runTest P Rx bs (t.1, t.2.1)
    | none => none

/-- Method `myModel.forward(Rx, W, C, mode, layer=0)`: dispatch on the
mode string.  In the single-layer modes `self.Layers[layer]` is indexed
directly (an out-of-range index raises, modelled as `none`); any other
mode string falls through both branches and the trailing
`return W,C` hands back the inputs unchanged. -/
def myModel.forward (M : myModel K N) (P : Prims K N) (Rx : RTensor K N)
    (W : WTensor K N) (C : CTensor K N) (mode : String) (layer : ℕ) :
    Option (WTensor K N × CTensor K N) :=
  if mode = "first_layer" ∨ mode = "greedy" then
    match M.Layers.get? layer with
    | some b =>
      match b.forward P Rx W C C with
      | some t => some (t.1, t.2.1)
      | none => none
    | none => none
  else if mode = "test" then
    myModel.runTest P Rx M.Layers (W, C)
  else
    some (W, C)

/-- Per-layer trainable-parameter state for `myModel.GradFalse`:
the layer's parameter values (all parameters collectively), the
`requires_grad` flag, the accumulated `grad`, and the train/eval flag
(`.eval()` clears `training`). -/
structure LayerState (Q : Type) where
  params : Q
  requires_grad : Bool
  grad : Option Q
  training : Bool

/-- The effect of the freeze loop body of `myModel.GradFalse` on one
layer: `.eval()`, `p.requires_grad = False`, `p.grad = None`. -/
def freezeLayer {Q : Type} (st : LayerState Q) : LayerState Q :=
  { st with requires_grad := false, grad := none, training := false }

/-- Index-aware map (the explicit `for i in range(...)` traversal). -/
def mapWithIdx {A : Type} (f : ℕ → A → A) : ℕ → List A → List A
  | _, [] => []
  | i, a :: as => f i a :: mapWithIdx f (i + 1) as

/-- Method `myModel.GradFalse(block, mode)`: if `block >= 1`, when
`mode == 'greedy'` first copy layer `block-1`'s parameter values into
layer `block` (`load_state_dict`; an out-of-range source index raises,
modelled as `none`), then freeze every layer of index `< block`. -/
def GradFalse {Q : Type} (Layers : List (LayerState Q)) (block : ℕ) (mode : String) :
    Option (List (LayerState Q)) :=
  if 1 ≤ block then
    let afterCopy : Option (List (LayerState Q)) :=
      if mode = "greedy" then
        (Layers.get? (block - 1)).map (fun prev =>
          mapWithIdx (fun i st => if i = block then { st with params := prev.params } else st)
            0 Layers)
      else some Layers
    afterCopy.map (fun ls =>
      mapWithIdx (fun i st => if i < block then freezeLayer st else st) 0 ls)
  else some Layers

/-- Spec-side formulation of the CoefficientSolver (spec section 4.2,
reproduced from its words): `rho_Rx` is the spectral norm of Rx and the
Lipschitz helper is applied to C and to C_old, then
`l_sup = max(gamma_w*alpha/(1-gamma_w), rho_Rx*2K*(1+sqrt(2/(alpha*gamma_c))))`,
`C0 = min(gamma_c^2/K^2, alpha*gamma_w/((1+zeta)*(1-gamma_w)*l_sup), rho_Rx/((1+zeta)*l_sup))`,
`L_inf = (1+zeta)*C0*l_sup`, `L_w_prev = max(L_inf, lipschitz(C_old, rho_Rx))`,
`L_w = max(L_inf, lipschitz(C, rho_Rx))`, and the four outputs are
`c_w = gamma_w/L_w`, `beta_w = (1-gamma_w)*sqrt(C0*nu*(1-nu)*L_w_prev/L_w)`,
`c_c = gamma_c/alpha`, `beta_c = sqrt(C0*nu*(1-nu))`. -/
def CoefficientSolverSpec (P : Prims K N) (gamma_c gamma_w nu zeta : ℝ)
    (Rx : RTensor K N) (alpha : ℝ) (C C_old : CTensor K N) : ℝ × ℝ × ℝ × ℝ :=
  let rho_Rx := P.spectral_norm_extracted Rx K N
  let l_sup := max (gamma_w * alpha / (1 - gamma_w))
    (rho_Rx * 2 * (K : ℝ) * (1 + Real.sqrt (2 / (alpha * gamma_c))))
  let C0 := min (gamma_c ^ 2 / (K : ℝ) ^ 2)
    (min (alpha * gamma_w / ((1 + zeta) * (1 - gamma_w) * l_sup))
      (rho_Rx / ((1 + zeta) * l_sup)))
  let L_inf := (1 + zeta) * C0 * l_sup
  let L_w_prev := max L_inf (P.lipschitz C_old rho_Rx)
  let L_w := max L_inf (P.lipschitz C rho_Rx)
  (gamma_w / L_w,
    (1 - gamma_w) * Real.sqrt (C0 * nu * (1 - nu) * L_w_prev / L_w),
    gamma_c / alpha,
    Real.sqrt (C0 * nu * (1 - nu)))

/-- Spec-side single W sub-step (claim wording): the new iterate is
`prox_f((W + beta_w*(W - W_old)) - c_w*grad_H_W(W + beta_w*(W - W_old), C, Rx), c_w)`
where `W_old` is the iterate that entered the immediately preceding
sub-step. -/
def W_iter.specStep (P : Prims K N) (Rx : RTensor K N) (C : CTensor K N)
    (c_w beta_w : ℝ) (W W_old : WTensor K N) : WTensor K N :=
  P.prox_f ((W + beta_w • (W - W_old)) -
    c_w • P.grad_H_W (W + beta_w • (W - W_old)) C Rx) c_w

/-- Spec-side iterate/previous-iterate pair after n sub-steps: the
second component is always the iterate that entered the previous
sub-step, and on the first sub-step it equals the block's input W. -/
def W_iter.specPair (P : Prims K N) (Rx : RTensor K N) (C : CTensor K N)
    (c_w beta_w : ℝ) : ℕ → WTensor K N × WTensor K N → WTensor K N × WTensor K N
  | 0, p => p
  | n + 1, p =>
    let q := W_iter.specPair P Rx C c_w beta_w n p
    (W_iter.specStep P Rx C c_w beta_w q.1 q.2, q.1)

/-- Spec-side chaining for mode consistency (claim C8): sequentially
perform one single-block `mode='first_layer'` forward call per block,
threading the produced (W, C) into the next call. -/
def chainSingle (P : Prims K N) (Rx : RTensor K N) :
    List (Block K N) → WTensor K N × CTensor K N → Option (WTensor K N × CTensor K N)
  | [], p => some p
  | b :: bs, p =>
    match myModel.forward (myModel.mk [b]) P Rx p.1 p.2 "first_layer" 0 with
    | some p' => chainSingle P Rx bs p'
    | none => none

/-- Concrete W input (K = N = 1) for witnesses and counterexamples. -/
def Wex : WTensor 1 1 := fun _ _ _ => 0

/-- Concrete C input. -/
def Cex : CTensor 1 1 := fun _ _ _ => 0

/-- Concrete previous C input, distinguishable from `Cex`. -/
def Coldex : CTensor 1 1 := fun _ _ _ => 1

/-- Concrete Rx input. -/
def Rxex : RTensor 1 1 := fun _ _ _ => 1

/-- Concrete primitives with constant spectral norm and Lipschitz
helper. -/
def Pid : Prims 1 1 where
  grad_H_W := fun _ _ _ => 0
  prox_f := fun w _ => w
  grad_H_C_reg := fun _ _ _ _ => 0
  prox_g := fun c _ _ => c
  spectral_norm_extracted := fun _ _ _ => 1 / 4
  lipschitz := fun _ _ => 1 / 4

/-- Concrete primitives whose Lipschitz helper returns a much larger
bound on `Coldex` (value 64) than on `Cex` (value 1/4). -/
def PexC : Prims 1 1 where
  grad_H_W := fun _ _ _ => 0
  prox_f := fun w _ => w
  grad_H_C_reg := fun _ _ _ _ => 0
  prox_g := fun c _ _ => c
  spectral_norm_extracted := fun _ _ _ => 1 / 4
  lipschitz := fun c _ => if c 0 0 0 = 0 then 1 / 4 else 64

/-- Concrete block with admissible theory constants. -/
def Bex : Block 1 1 where
  NN_alpha := fun _ _ => 2
  W_iter := W_iter.mk 1
  C_iter := C_iter.mk 1
  gamma_c := 1
  gamma_w := 1 / 2
  eps := 1
  nu := 1 / 2
  zeta := 1

/-- Concrete block whose `C_iter` is configured with zero sub-steps. -/
def B0 : Block 1 1 where
  NN_alpha := fun _ _ => 2
  W_iter := W_iter.mk 1
  C_iter := C_iter.mk 0
  gamma_c := 1
  gamma_w := 1 / 2
  eps := 1
  nu := 1 / 2
  zeta := 1

/-- Concrete two-layer model: the block at position 0 has zero C
sub-steps (its forward fails), the block at position 1 succeeds. -/
def M2 : myModel 1 1 := myModel.mk [B0, Bex]

/-- Concrete one-layer model. -/
def M1 : myModel 1 1 := myModel.mk [Bex]

/-- Concrete layer-parameter states for the GradFalse claims. -/
def LSex : List (LayerState ℕ) :=
  [LayerState.mk 10 true (some 5) true, LayerState.mk 20 true none true]

lemma get_coefficients_def (B : Block K N) (P : Prims K N) (Rx : RTensor K N)
    (alpha : ℝ) (C C_old : CTensor K N) :
    B.get_coefficients P Rx alpha C C_old =
      (B.gamma_w / B.L_w P Rx alpha C,
        (1 - B.gamma_w) * Real.sqrt (B.C0 P Rx alpha * B.nu * (1 - B.nu) *
          B.L_w P Rx alpha C_old / B.L_w P Rx alpha C),
        B.gamma_c / alpha,
        Real.sqrt (B.C0 P Rx alpha * B.nu * (1 - B.nu))) := rfl

lemma W_inertial_self (beta_w : ℝ) (W : WTensor K N) :
    W_iter.inertial_step beta_w W W = W := by
  simp [W_iter.inertial_step]

lemma C_inertial_self (beta_c : ℝ) (C : CTensor K N) :
    C_iter.inertial_step beta_c C C = C := by
  simp [C_iter.inertial_step]

lemma W_update_eq_specStep (P : Prims K N) (Rx : RTensor K N) (W W_old : WTensor K N)
    (C : CTensor K N) (c_w beta_w : ℝ) :
    W_iter.update P Rx W W_old C c_w beta_w =
      (W_iter.specStep P Rx C c_w beta_w W W_old, W) := rfl

lemma specPair_succ_left (P : Prims K N) (Rx : RTensor K N) (C : CTensor K N)
    (c_w beta_w : ℝ) :
    ∀ (n : ℕ) (p : WTensor K N × WTensor K N),
      W_iter.specPair P Rx C c_w beta_w (n + 1) p =
        W_iter.specPair P Rx C c_w beta_w n
          (W_iter.specStep P Rx C c_w beta_w p.1 p.2, p.1) := by
  intro n
  induction n with
  | zero => intro p; rfl
  | succ n ih =>
    intro p
    calc W_iter.specPair P Rx C c_w beta_w (n + 2) p
        = (W_iter.specStep P Rx C c_w beta_w
            (W_iter.specPair P Rx C c_w beta_w (n + 1) p).1
            (W_iter.specPair P Rx C c_w beta_w (n + 1) p).2,
            (W_iter.specPair P Rx C c_w beta_w (n + 1) p).1) := rfl
      _ = _ := by rw [ih p]; rfl

lemma W_loop_eq_specPair (P : Prims K N) (Rx : RTensor K N) (C : CTensor K N)
    (c_w beta_w : ℝ) :
    ∀ (n : ℕ) (p : WTensor K N × WTensor K N),
      W_iter.loop P Rx C c_w beta_w n p = W_iter.specPair P Rx C c_w beta_w n p := by
  intro n
  induction n with
  | zero => intro p; rfl
  | succ n ih =>
    intro p
    have h1 : W_iter.loop P Rx C c_w beta_w (n + 1) p =
        W_iter.loop P Rx C c_w beta_w n (W_iter.update P Rx p.1 p.2 C c_w beta_w) := rfl
    rw [h1, ih, W_update_eq_specStep, ← specPair_succ_left]

lemma Block.forward_none_of_zero (B : Block K N) (hN : B.C_iter.N_updates_C = 0)
    (P : Prims K N) (Rx : RTensor K N) (W : WTensor K N) (C C_old : CTensor K N) :
    B.forward P Rx W C C_old = none := by
  simp [Block.forward, C_iter.forward, hN]

/-- C1: `Block.get_coefficients(Rx, alpha, C, C_old)` with C of shape
[K, K, N] returns exactly the four scalars of the spec's derivation
(`l_sup`, `C0`, `L_inf`, `L_w_prev`, `L_w`, then
`c_w = gamma_w/L_w`, `beta_w = (1-gamma_w)*sqrt(C0*nu*(1-nu)*L_w_prev/L_w)`,
`c_c = gamma_c/alpha`, `beta_c = sqrt(C0*nu*(1-nu))`). -/
theorem get_coefficients_matches_spec (B : Block K N) (P : Prims K N)
    (Rx : RTensor K N) (alpha : ℝ) (C C_old : CTensor K N) :
    B.get_coefficients P Rx alpha C C_old =
      CoefficientSolverSpec P B.gamma_c B.gamma_w B.nu B.zeta Rx alpha C C_old := by
  simp only [Block.get_coefficients, CoefficientSolverSpec, min_assoc]

/-- C3: with `N_updates_C >= 1`, `C_iter.forward` performs exactly one
sub-step and returns from inside its loop the pair (updated C, clone of
the input C), regardless of how large `N_updates_C` is. -/
theorem C_iter_forward_single_step (self : C_iter) (h : 1 ≤ self.N_updates_C)
    (P : Prims K N) (Rx : RTensor K N) (C : CTensor K N) (W_updated : WTensor K N)
    (c_c beta_c alpha eps : ℝ) :
    self.forward P Rx C W_updated c_c beta_c alpha eps =
      some (C_iter.update P Rx C C W_updated c_c beta_c alpha eps) ∧
    (C_iter.update P Rx C C W_updated c_c beta_c alpha eps).2 = C := by
  constructor
  · cases hn : self.N_updates_C with
    | zero => omega
    | succ n => simp [C_iter.forward, hn]
  · rfl

/-- C3 witness: a concrete `C_iter` configured with two sub-steps still
performs exactly one. -/
theorem C_iter_forward_single_step_witness :
    1 ≤ (C_iter.mk 2).N_updates_C ∧
    (C_iter.mk 2).forward Pid Rxex Cex Wex 1 1 1 1 =
      some (C_iter.update Pid Rxex Cex Cex Wex 1 1 1 1) :=
  ⟨by decide,
    (C_iter_forward_single_step (C_iter.mk 2) (by decide) Pid Rxex Cex Wex 1 1 1 1).1⟩

/-- C4: `W_iter.forward` performs exactly `N_updates_W` sub-steps; each
sub-step applies the inertial/gradient/prox formula where `W_old` is the
iterate that entered the immediately preceding sub-step (re-snapshotted
each sub-step), starting from `W_old = W` so that the first inertial
term vanishes; the final W is returned with C held fixed. -/
theorem W_iter_forward_spec (self : W_iter) (P : Prims K N) (Rx : RTensor K N)
    (W : WTensor K N) (C : CTensor K N) (c_w beta_w : ℝ) :
    self.forward P Rx W C c_w beta_w =
      (W_iter.specPair P Rx C c_w beta_w self.N_updates_W (W, W)).1 ∧
    W_iter.inertial_step beta_w W W = W := by
  constructor
  · unfold W_iter.forward
    rw [W_loop_eq_specPair]
  · exact W_inertial_self beta_w W

/-- C9: the inertial extrapolation inside `C_iter.forward` is the
identity (`C_old` is snapshotted as a clone of the current C just before
the sub-step), hence `beta_c` never affects the output, and the `C_old`
returned by `Block.forward` is always the block's own pre-update C. -/
theorem C_iter_beta_c_irrelevant (P : Prims K N) (Rx : RTensor K N)
    (C : CTensor K N) :
    (∀ (self : C_iter) (W_updated : WTensor K N) (c_c alpha eps b b' : ℝ),
      self.forward P Rx C W_updated c_c b alpha eps =
        self.forward P Rx C W_updated c_c b' alpha eps) ∧
    (∀ b : ℝ, C_iter.inertial_step b C C = C) ∧
    (∀ (B : Block K N) (W0 : WTensor K N) (C_old : CTensor K N),
      (B.forward P Rx W0 C C_old).map (fun t => t.2.2) =
        (B.forward P Rx W0 C C_old).map (fun _ => C)) := by
  have hupd : ∀ (W_updated : WTensor K N) (c_c alpha eps b b' : ℝ),
      C_iter.update P Rx C C W_updated c_c b alpha eps =
        C_iter.update P Rx C C W_updated c_c b' alpha eps := by
    intro W_updated c_c alpha eps b b'
    simp only [C_iter.update, C_inertial_self]
  refine ⟨?_, fun b => C_inertial_self b C, ?_⟩
  · intro self W_updated c_c alpha eps b b'
    cases hn : self.N_updates_C with
    | zero => simp [C_iter.forward, hn]
    | succ n => simp only [C_iter.forward, hn]; rw [hupd]
  · intro B W0 C_old
    cases hn : B.C_iter.N_updates_C with
    | zero => simp [Block.forward, C_iter.forward, hn]
    | succ n => simp [Block.forward, C_iter.forward, C_iter.update, hn]

/-- C10: with `N_updates_C = 0` the `C_iter.forward` loop never runs and
the function returns `None`; `Block.forward` then fails at the unpacking
of the pair, so every successful `Block.forward` requires
`N_updates_C >= 1`. -/
theorem C_iter_zero_updates_none :
    (∀ (P : Prims K N) (Rx : RTensor K N) (C : CTensor K N)
      (W : WTensor K N) (c b a e : ℝ),
      (C_iter.mk 0).forward P Rx C W c b a e = none) ∧
    (∀ B : Block K N, B.C_iter.N_updates_C = 0 →
      ∀ (P : Prims K N) (Rx : RTensor K N) (W : WTensor K N) (C C_old : CTensor K N),
      B.forward P Rx W C C_old = none) ∧
    (∀ (B : Block K N) (P : Prims K N) (Rx : RTensor K N) (W : WTensor K N)
      (C C_old : CTensor K N) out,
      B.forward P Rx W C C_old = some out → 1 ≤ B.C_iter.N_updates_C) := by
  refine ⟨fun P Rx C W c b a e => rfl,
    fun B hB P Rx W C C_old => Block.forward_none_of_zero B hB P Rx W C C_old, ?_⟩
  intro B P Rx W C C_old out h
  cases hn : B.C_iter.N_updates_C with
  | zero =>
    rw [Block.forward_none_of_zero B hn P Rx W C C_old] at h
    cases h
  | succ n => omega

/-- C10 witness: the concrete block `B0` (zero C sub-steps) makes
`Block.forward` fail. -/
theorem C_iter_zero_updates_none_witness :
    B0.C_iter.N_updates_C = 0 ∧ B0.forward Pid Rxex Wex Cex Cex = none :=
  ⟨rfl, C_iter_zero_updates_none.2.1 B0 rfl Pid Rxex Wex Cex Cex⟩

lemma mapWithIdx_get? {A : Type} (f : ℕ → A → A) :
    ∀ (l : List A) (i j : ℕ), (mapWithIdx f i l).get? j = (l.get? j).map (f (i + j)) := by
  intro l
  induction l with
  | nil => intro i j; simp [mapWithIdx]
  | cons a as ih =>
    intro i j
    cases j with
    | zero => simp [mapWithIdx]
    | succ j =>
      simp only [mapWithIdx, List.get?]
      rw [ih (i + 1) j, show i + 1 + j = i + (j + 1) from by omega]

lemma runTest_eq_chainSingle (P : Prims K N) (Rx : RTensor K N) :
    ∀ (bs : List (Block K N)) (p : WTensor K N × CTensor K N),
      myModel.runTest P Rx bs p = chainSingle P Rx bs p := by
  intro bs
  induction bs with
  | nil => intro p; rfl
  | cons b bs ih =>
    intro p
    have hf : myModel.forward (myModel.mk [b]) P Rx p.1 p.2 "first_layer" 0 =
        match b.forward P Rx p.1 p.2 p.2 with
        | some t => some (t.1, t.2.1)
        | none => none := by
      unfold myModel.forward
      rw [if_pos (Or.inl rfl)]
      rfl
    rw [myModel.runTest, chainSingle, hf]
    cases hb : b.forward P Rx p.1 p.2 p.2 with
    | none => rfl
    | some t => exact ih (t.1, t.2.1)

lemma GradFalse_greedy_core {Q : Type} (Layers : List (LayerState Q)) (block : ℕ)
    (h1 : 1 ≤ block) (h2 : block < Layers.length) :
    ∃ res, GradFalse Layers block "greedy" = some res ∧
      (res.get? block).map LayerState.params =
        (Layers.get? (block - 1)).map LayerState.params ∧
      (res.get? block).map LayerState.requires_grad =
        (Layers.get? block).map LayerState.requires_grad ∧
      (∀ i, i < block →
        (res.get? i).map LayerState.requires_grad = some false ∧
        (res.get? i).map LayerState.grad = some none ∧
        (res.get? i).map LayerState.training = some false) ∧
      (res.get? (block - 1)).map LayerState.params =
        (Layers.get? (block - 1)).map LayerState.params ∧
      (∀ i, block < i → res.get? i = Layers.get? i) := by
  have hbm : block - 1 < Layers.length := by omega
  obtain ⟨prev, hprev⟩ : ∃ prev, Layers.get? (block - 1) = some prev :=
    ⟨_, List.get?_eq_get hbm⟩
  obtain ⟨stb, hstb⟩ : ∃ stb, Layers.get? block = some stb :=
    ⟨_, List.get?_eq_get h2⟩
  refine ⟨mapWithIdx (fun i st => if i < block then freezeLayer st else st) 0
      (mapWithIdx (fun i st => if i = block then { st with params := prev.params } else st)
        0 Layers), ?_, ?_, ?_, ?_, ?_, ?_⟩
  case _ =>
    simp only [GradFalse]
    rw [if_pos h1, if_pos trivial, hprev, Option.map_some', Option.map_some']
  all_goals
    have hget : ∀ j, (mapWithIdx (fun i st => if i < block then freezeLayer st else st) 0
        (mapWithIdx (fun i st => if i = block then { st with params := prev.params } else st)
          0 Layers)).get? j =
        ((Layers.get? j).map
          (fun st => if j = block then { st with params := prev.params } else st)).map
          (fun st => if j < block then freezeLayer st else st) := by
      intro j
      rw [mapWithIdx_get?, mapWithIdx_get?]
      simp
  · rw [hget, hstb, hprev]
    simp
  · rw [hget, hstb]
    simp
  · intro i hi
    have hiL : i < Layers.length := by omega
    obtain ⟨sti, hsti⟩ : ∃ sti, Layers.get? i = some sti := ⟨_, List.get?_eq_get hiL⟩
    have hne : i ≠ block := by omega
    refine ⟨?_, ?_, ?_⟩ <;> (rw [hget, hsti]; simp [hne, hi, freezeLayer])
  · rw [hget, hprev]
    have hne : block - 1 ≠ block := by omega
    have hlt : block - 1 < block := by omega
    simp [hne, hlt, freezeLayer]
  · intro i hi
    have hne : i ≠ block := by omega
    have hnl : ¬ i < block := by omega
    rw [hget]
    cases hx : Layers.get? i with
    | none => simp
    | some st => simp [hne, hnl]

/-- C6: `GradFalse(block, mode)` with `block >= 1` and greedy mode copies
layer `block-1`'s parameter values into layer `block`, freezes (clears
gradients, disables `requires_grad`, switches to eval) every layer of
index strictly below `block`, leaves layer `block-1`'s values and every
layer above `block` untouched, and keeps layer `block` trainable; in any
non-greedy mode only the freezing happens and no parameter value
changes. -/
theorem GradFalse_greedy_spec {Q : Type} (Layers : List (LayerState Q)) (block : ℕ)
    (h1 : 1 ≤ block) (h2 : block < Layers.length) :
    (∃ res, GradFalse Layers block "greedy" = some res ∧
      (res.get? block).map LayerState.params =
        (Layers.get? (block - 1)).map LayerState.params ∧
      (res.get? block).map LayerState.requires_grad =
        (Layers.get? block).map LayerState.requires_grad ∧
      (∀ i, i < block →
        (res.get? i).map LayerState.requires_grad = some false ∧
        (res.get? i).map LayerState.grad = some none ∧
        (res.get? i).map LayerState.training = some false) ∧
      (res.get? (block - 1)).map LayerState.params =
        (Layers.get? (block - 1)).map LayerState.params ∧
      (∀ i, block < i → res.get? i = Layers.get? i)) ∧
    (∀ mode, mode ≠ "greedy" →
      ∃ res, GradFalse Layers block mode = some res ∧
        (∀ i, i < block →
          (res.get? i).map LayerState.params = (Layers.get? i).map LayerState.params ∧
          (res.get? i).map LayerState.requires_grad = some false ∧
          (res.get? i).map LayerState.grad = some none ∧
          (res.get? i).map LayerState.training = some false) ∧
        (∀ i, block ≤ i → res.get? i = Layers.get? i)) := by
  refine ⟨GradFalse_greedy_core Layers block h1 h2, ?_⟩
  intro mode hm
  refine ⟨mapWithIdx (fun i st => if i < block then freezeLayer st else st) 0 Layers,
    ?_, ?_, ?_⟩
  · simp only [GradFalse]
    rw [if_pos h1, if_neg hm, Option.map_some']
  · intro i hi
    have hiL : i < Layers.length := by omega
    obtain ⟨sti, hsti⟩ : ∃ sti, Layers.get? i = some sti := ⟨_, List.get?_eq_get hiL⟩
    rw [mapWithIdx_get?, hsti]
    refine ⟨?_, ?_, ?_, ?_⟩ <;> simp [hi, freezeLayer]
  · intro i hi
    have hnl : ¬ i < block := by omega
    rw [mapWithIdx_get?]
    cases hx : Layers.get? i with
    | none => simp
    | some st => simp [hnl]

/-- C6 witness: a concrete two-layer state with `block = 1` in greedy
mode. -/
theorem GradFalse_greedy_spec_witness :
    1 ≤ 1 ∧ 1 < LSex.length ∧
    ∃ res, GradFalse LSex 1 "greedy" = some res ∧
      (res.get? 1).map LayerState.params = (LSex.get? 0).map LayerState.params ∧
      (res.get? 1).map LayerState.requires_grad = (LSex.get? 1).map LayerState.requires_grad ∧
      (∀ i, i < 1 →
        (res.get? i).map LayerState.requires_grad = some false ∧
        (res.get? i).map LayerState.grad = some none ∧
        (res.get? i).map LayerState.training = some false) ∧
      (res.get? 0).map LayerState.params = (LSex.get? 0).map LayerState.params ∧
      (∀ i, 1 < i → res.get? i = LSex.get? i) :=
  ⟨le_refl 1, by decide, (GradFalse_greedy_spec LSex 1 (le_refl 1) (by decide)).1⟩


/-- C8: `mode='test'` runs every block once in index order,
re-snapshotting `C_old` as a clone of the current C before each block
and discarding the `C_old` each block returns; this equals chaining
single-block `mode='first_layer'` calls with correctly threaded state. -/
theorem testMode_eq_chainSingle (M : myModel K N) (P : Prims K N) (Rx : RTensor K N)
    (W : WTensor K N) (C : CTensor K N) (layer : ℕ) :
    M.forward P Rx W C "test" layer = chainSingle P Rx M.Layers (W, C) := by
  have hmode : ¬(("test" : String) = "first_layer" ∨ ("test" : String) = "greedy") := by
    decide
  unfold myModel.forward
  rw [if_neg hmode, if_pos rfl]
  exact runTest_eq_chainSingle P Rx M.Layers (W, C)

/-- C5 counterexample: with the two-layer model `M2` (block 0 fails,
block 1 succeeds) and layer argument 1, `myModel.forward` does not
return the result of the block at 0-based position 1 - 1 = 0 (which
would be `none`): the code indexes `Layers[layer]` directly. -/
theorem forward_layer_indexing_counterexample :
    M2.Layers.get? 0 = some B0 ∧
    (B0.forward Pid Rxex Wex Cex Cex).map (fun t => (t.1, t.2.1)) = none ∧
    M2.forward Pid Rxex Wex Cex "first_layer" 1 ≠
      (B0.forward Pid Rxex Wex Cex Cex).map (fun t => (t.1, t.2.1)) := by
  have hB0 : (B0.forward Pid Rxex Wex Cex Cex).map
      (fun t : WTensor 1 1 × CTensor 1 1 × CTensor 1 1 => (t.1, t.2.1)) = none := by
    rw [Block.forward_none_of_zero B0 rfl]
    rfl
  refine ⟨rfl, hB0, ?_⟩
  have hs : (M2.forward Pid Rxex Wex Cex "first_layer" 1).isSome = true := rfl
  intro h
  rw [h, hB0] at hs
  exact Bool.noConfusion hs

/-- C5 amended: in mode 'first_layer' or 'greedy' with layer argument
`l`, exactly one block is executed, namely the one at 0-based position
`l` itself (the argument is a 0-based index; no `l-1` shift), with a
fresh `C_old = C` snapshot, and its (W, C) is returned. -/
theorem forward_single_layer (M : myModel K N) (P : Prims K N) (Rx : RTensor K N)
    (W : WTensor K N) (C : CTensor K N) (l : ℕ) (b : Block K N)
    (hb : M.Layers.get? l = some b) :
    M.forward P Rx W C "first_layer" l =
      (b.forward P Rx W C C).map (fun t => (t.1, t.2.1)) ∧
    M.forward P Rx W C "greedy" l =
      (b.forward P Rx W C C).map (fun t => (t.1, t.2.1)) := by
  constructor
  · unfold myModel.forward
    rw [if_pos (Or.inl rfl), hb]
    show (match b.forward P Rx W C C with
      | some t => some (t.1, t.2.1)
      | none => none) = (b.forward P Rx W C C).map (fun t => (t.1, t.2.1))
    cases hfb : b.forward P Rx W C C with
    | none => rfl
    | some t => rfl
  · unfold myModel.forward
    rw [if_pos (Or.inr rfl), hb]
    show (match b.forward P Rx W C C with
      | some t => some (t.1, t.2.1)
      | none => none) = (b.forward P Rx W C C).map (fun t => (t.1, t.2.1))
    cases hfb : b.forward P Rx W C C with
    | none => rfl
    | some t => rfl

/-- C5 witness: concrete one-layer model at layer index 0. -/
theorem forward_single_layer_witness :
    M1.Layers.get? 0 = some Bex ∧
    M1.forward Pid Rxex Wex Cex "first_layer" 0 =
      (Bex.forward Pid Rxex Wex Cex Cex).map (fun t => (t.1, t.2.1)) :=
  ⟨rfl, (forward_single_layer M1 Pid Rxex Wex Cex 0 Bex rfl).1⟩

/-- C7 counterexample: an unrecognized mode string does not fail; the
call silently returns the input (W, C) unchanged. -/
theorem forward_unknown_mode_counterexample :
    M1.forward Pid Rxex Wex Cex "bogus" 0 = some (Wex, Cex) := rfl

/-- C7 amended: an unrecognized mode string silently returns the input
(W, C) unchanged (no error); only an out-of-range layer index in the
single-layer modes fails. -/
theorem forward_unknown_mode (M : myModel K N) (P : Prims K N) (Rx : RTensor K N)
    (W : WTensor K N) (C : CTensor K N) :
    (∀ (mode : String) (layer : ℕ),
      mode ≠ "first_layer" → mode ≠ "greedy" → mode ≠ "test" →
      M.forward P Rx W C mode layer = some (W, C)) ∧
    (∀ layer, M.Layers.length ≤ layer →
      M.forward P Rx W C "first_layer" layer = none ∧
      M.forward P Rx W C "greedy" layer = none) := by
  constructor
  · intro mode layer hm1 hm2 hm3
    unfold myModel.forward
    rw [if_neg (by simp [hm1, hm2]), if_neg hm3]
  · intro layer hlen
    have hnone : M.Layers.get? layer = none := List.get?_eq_none.mpr hlen
    constructor
    · unfold myModel.forward
      rw [if_pos (Or.inl rfl), hnone]
    · unfold myModel.forward
      rw [if_pos (Or.inr rfl), hnone]

/-- C7 witness: mode 'train' is silently accepted; layer index 1 is out
of range for the one-layer model and fails. -/
theorem forward_unknown_mode_witness :
    M1.forward Pid Rxex Wex Cex "train" 3 = some (Wex, Cex) ∧
    M1.forward Pid Rxex Wex Cex "first_layer" 1 = none :=
  ⟨(forward_unknown_mode M1 Pid Rxex Wex Cex).1 "train" 3
      (by decide) (by decide) (by decide),
    ((forward_unknown_mode M1 Pid Rxex Wex Cex).2 1 (by decide)).1⟩

lemma two_rho_le_l_sup (B : Block K N) (P : Prims K N) (Rx : RTensor K N)
    (alpha : ℝ) (hK : 1 ≤ K) (hρ : 0 < P.spectral_norm_extracted Rx K N) :
    2 * P.spectral_norm_extracted Rx K N ≤ B.l_sup P Rx alpha := by
  have hs : 0 ≤ Real.sqrt (2 / (alpha * B.gamma_c)) := Real.sqrt_nonneg _
  have hKr : (1 : ℝ) ≤ (K : ℝ) := by exact_mod_cast hK
  have h2 : 2 * P.spectral_norm_extracted Rx K N ≤
      P.spectral_norm_extracted Rx K N * 2 * (K : ℝ) *
        (1 + Real.sqrt (2 / (alpha * B.gamma_c))) := by
    nlinarith [mul_nonneg (le_of_lt hρ) hs,
      mul_nonneg (mul_nonneg (le_of_lt hρ) hs) (le_trans zero_le_one hKr)]
  have h3 : P.spectral_norm_extracted Rx K N * 2 * (K : ℝ) *
      (1 + Real.sqrt (2 / (alpha * B.gamma_c))) ≤ B.l_sup P Rx alpha := by
    unfold Block.l_sup
    exact le_max_right _ _
  linarith

lemma l_sup_pos (B : Block K N) (P : Prims K N) (Rx : RTensor K N) (alpha : ℝ)
    (hK : 1 ≤ K) (hρ : 0 < P.spectral_norm_extracted Rx K N) :
    0 < B.l_sup P Rx alpha := by
  have h := two_rho_le_l_sup B P Rx alpha hK hρ
  linarith

lemma C0_pos (B : Block K N) (P : Prims K N) (Rx : RTensor K N) (alpha : ℝ)
    (hα : 0 < alpha) (hK : 1 ≤ K) (hρ : 0 < P.spectral_norm_extracted Rx K N)
    (hgw0 : 0 < B.gamma_w) (hgw1 : B.gamma_w < 1) (hgc : 0 < B.gamma_c)
    (hζ : 0 < B.zeta) :
    0 < B.C0 P Rx alpha := by
  have hls := l_sup_pos B P Rx alpha hK hρ
  have hKn : 0 < K := by omega
  have hKr : (0 : ℝ) < (K : ℝ) := by exact_mod_cast hKn
  have h1gw : 0 < 1 - B.gamma_w := by linarith
  unfold Block.C0
  refine lt_min (lt_min ?_ ?_) ?_
  · positivity
  · exact div_pos (by positivity) (by positivity)
  · exact div_pos hρ (by positivity)

lemma C0_lt_half (B : Block K N) (P : Prims K N) (Rx : RTensor K N) (alpha : ℝ)
    (hK : 1 ≤ K) (hρ : 0 < P.spectral_norm_extracted Rx K N) (hζ : 0 < B.zeta) :
    B.C0 P Rx alpha < 1 / 2 := by
  have h2ρ := two_rho_le_l_sup B P Rx alpha hK hρ
  have hls := l_sup_pos B P Rx alpha hK hρ
  have hmin : B.C0 P Rx alpha ≤
      P.spectral_norm_extracted Rx K N / ((1 + B.zeta) * B.l_sup P Rx alpha) := by
    unfold Block.C0
    exact min_le_right _ _
  have hden : 2 * P.spectral_norm_extracted Rx K N <
      (1 + B.zeta) * B.l_sup P Rx alpha := by
    nlinarith [mul_pos hζ hls]
  have h5 : P.spectral_norm_extracted Rx K N /
      ((1 + B.zeta) * B.l_sup P Rx alpha) < 1 / 2 := by
    rw [div_lt_iff₀ (by positivity)]
    linarith
  linarith

lemma L_w_pos (B : Block K N) (P : Prims K N) (Rx : RTensor K N) (alpha : ℝ)
    (C : CTensor K N) (hα : 0 < alpha) (hK : 1 ≤ K)
    (hρ : 0 < P.spectral_norm_extracted Rx K N) (hgw0 : 0 < B.gamma_w)
    (hgw1 : B.gamma_w < 1) (hgc : 0 < B.gamma_c) (hζ : 0 < B.zeta) :
    0 < B.L_w P Rx alpha C := by
  have hls := l_sup_pos B P Rx alpha hK hρ
  have hC0 := C0_pos B P Rx alpha hα hK hρ hgw0 hgw1 hgc hζ
  have hLinf : 0 < B.L_inf P Rx alpha := by
    unfold Block.L_inf
    positivity
  have h := le_max_left (B.L_inf P Rx alpha)
    (P.lipschitz C (P.spectral_norm_extracted Rx K N))
  unfold Block.L_w
  exact lt_of_lt_of_le hLinf h

/-- C2 counterexample: with admissible constants, positive alpha, K = 1
and positive spectral-norm/Lipschitz primitive outputs, the concrete
inputs below (the Lipschitz bound of the previous C is 64, that of the
current C is 1/4) give `beta_w = 1`, so `beta_w` is not in [0, 1). -/
theorem get_coefficients_beta_w_counterexample :
    (0 : ℝ) < 2 ∧ 1 ≤ 1 ∧
    0 < Bex.gamma_w ∧ Bex.gamma_w < 1 ∧ 0 < Bex.gamma_c ∧
    0 < Bex.nu ∧ Bex.nu < 1 ∧ 0 < Bex.zeta ∧
    0 < PexC.spectral_norm_extracted Rxex 1 1 ∧
    0 < PexC.lipschitz Cex (PexC.spectral_norm_extracted Rxex 1 1) ∧
    0 < PexC.lipschitz Coldex (PexC.spectral_norm_extracted Rxex 1 1) ∧
    (Bex.get_coefficients PexC Rxex 2 Cex Coldex).2.1 = 1 ∧
    ¬ ((Bex.get_coefficients PexC Rxex 2 Cex Coldex).2.1 < 1) := by
  have hρ : PexC.spectral_norm_extracted Rxex 1 1 = 1 / 4 := rfl
  have hlC : PexC.lipschitz Cex (PexC.spectral_norm_extracted Rxex 1 1) = 1 / 4 := by
    simp [PexC, Cex]
  have hlCold : PexC.lipschitz Coldex (PexC.spectral_norm_extracted Rxex 1 1) = 64 := by
    norm_num [PexC, Coldex]
  have hsqrt1 : Real.sqrt (2 / ((2 : ℝ) * Bex.gamma_c)) = 1 := by
    rw [show (2 : ℝ) / (2 * Bex.gamma_c) = 1 by norm_num [Bex], Real.sqrt_one]
  have hlsup : Bex.l_sup PexC Rxex 2 = 2 := by
    unfold Block.l_sup
    rw [show Real.sqrt (2 / (2 * Bex.gamma_c)) = 1 from hsqrt1, hρ]
    norm_num [Bex, max_def]
  have hC0 : Bex.C0 PexC Rxex 2 = 1 / 16 := by
    unfold Block.C0
    rw [hlsup, hρ]
    norm_num [Bex, min_def]
  have hLinf : Bex.L_inf PexC Rxex 2 = 1 / 4 := by
    unfold Block.L_inf
    rw [hC0, hlsup]
    norm_num [Bex]
  have hLwC : Bex.L_w PexC Rxex 2 Cex = 1 / 4 := by
    unfold Block.L_w
    rw [hLinf, hlC]
    exact max_self _
  have hLwCold : Bex.L_w PexC Rxex 2 Coldex = 64 := by
    unfold Block.L_w
    rw [hLinf, hlCold]
    exact max_eq_right (by norm_num)
  have hs4 : Real.sqrt 4 = 2 := by
    rw [show (4 : ℝ) = 2 ^ 2 by norm_num]
    exact Real.sqrt_sq (by norm_num)
  have hbw : (Bex.get_coefficients PexC Rxex 2 Cex Coldex).2.1 = 1 := by
    rw [get_coefficients_def]
    show (1 - Bex.gamma_w) * Real.sqrt (Bex.C0 PexC Rxex 2 * Bex.nu * (1 - Bex.nu) *
      Bex.L_w PexC Rxex 2 Coldex / Bex.L_w PexC Rxex 2 Cex) = 1
    rw [hC0, hLwCold, hLwC]
    rw [show (1 : ℝ) / 16 * Bex.nu * (1 - Bex.nu) * 64 / (1 / 4) = 4 by norm_num [Bex]]
    rw [hs4]
    norm_num [Bex]
  refine ⟨by norm_num, le_refl 1, by norm_num [Bex], by norm_num [Bex], by norm_num [Bex],
    by norm_num [Bex], by norm_num [Bex], by norm_num [Bex], by rw [hρ]; norm_num,
    by rw [hlC]; norm_num, by rw [hlCold]; norm_num, hbw, by rw [hbw]; exact lt_irrefl 1⟩

/-- C2 amended: under positive alpha, K >= 1, positive primitive outputs
and admissible theory constants, `get_coefficients` returns `c_w > 0`,
`c_c > 0`, `c_w` strictly below `1/L_w` (the computed Lipschitz
surrogate), and `beta_c` in [0, 1); `beta_w` is nonnegative, but lies in
[0, 1) only under the additional hypothesis that the Lipschitz bound of
`C_old` does not exceed that of `C` (equivalently `L_w_prev <= L_w`) —
without it `beta_w` can reach 1 or more. -/
theorem get_coefficients_ranges (B : Block K N) (P : Prims K N) (Rx : RTensor K N)
    (alpha : ℝ) (C C_old : CTensor K N)
    (hα : 0 < alpha) (hK : 1 ≤ K)
    (hgw0 : 0 < B.gamma_w) (hgw1 : B.gamma_w < 1) (hgc : 0 < B.gamma_c)
    (hν0 : 0 < B.nu) (hν1 : B.nu < 1) (hζ : 0 < B.zeta)
    (hρ : 0 < P.spectral_norm_extracted Rx K N)
    (hlC : 0 < P.lipschitz C (P.spectral_norm_extracted Rx K N))
    (hlCold : 0 < P.lipschitz C_old (P.spectral_norm_extracted Rx K N))
    (hmono : P.lipschitz C_old (P.spectral_norm_extracted Rx K N) ≤
      P.lipschitz C (P.spectral_norm_extracted Rx K N)) :
    0 < (B.get_coefficients P Rx alpha C C_old).1 ∧
    (B.get_coefficients P Rx alpha C C_old).1 < 1 / B.L_w P Rx alpha C ∧
    0 < (B.get_coefficients P Rx alpha C C_old).2.2.1 ∧
    0 ≤ (B.get_coefficients P Rx alpha C C_old).2.1 ∧
    (B.get_coefficients P Rx alpha C C_old).2.1 < 1 ∧
    0 ≤ (B.get_coefficients P Rx alpha C C_old).2.2.2 ∧
    (B.get_coefficients P Rx alpha C C_old).2.2.2 < 1 := by
  have hLw := L_w_pos B P Rx alpha C hα hK hρ hgw0 hgw1 hgc hζ
  have hLwOld := L_w_pos B P Rx alpha C_old hα hK hρ hgw0 hgw1 hgc hζ
  have hC0 := C0_pos B P Rx alpha hα hK hρ hgw0 hgw1 hgc hζ
  have hC0h := C0_lt_half B P Rx alpha hK hρ hζ
  have hν1' : 0 < 1 - B.nu := by linarith
  have hrad1 : B.C0 P Rx alpha * B.nu * (1 - B.nu) < 1 := by
    nlinarith [mul_pos hν0 hν1', sq_nonneg (B.nu - 1 / 2)]
  have hradnn : 0 ≤ B.C0 P Rx alpha * B.nu * (1 - B.nu) := by positivity
  have hLL : B.L_w P Rx alpha C_old ≤ B.L_w P Rx alpha C := by
    unfold Block.L_w
    exact max_le_max (le_refl _) hmono
  rw [get_coefficients_def]
  refine ⟨div_pos hgw0 hLw, ?_, div_pos hgc hα, ?_, ?_, Real.sqrt_nonneg _, ?_⟩
  · exact (div_lt_div_iff_of_pos_right hLw).mpr hgw1
  · exact mul_nonneg (by linarith) (Real.sqrt_nonneg _)
  · have hrad2 : B.C0 P Rx alpha * B.nu * (1 - B.nu) * B.L_w P Rx alpha C_old /
        B.L_w P Rx alpha C ≤ B.C0 P Rx alpha * B.nu * (1 - B.nu) := by
      rw [div_le_iff₀ hLw]
      nlinarith [mul_le_mul_of_nonneg_left hLL hradnn]
    have hrad2nn : 0 ≤ B.C0 P Rx alpha * B.nu * (1 - B.nu) * B.L_w P Rx alpha C_old /
        B.L_w P Rx alpha C := by positivity
    have hsq : Real.sqrt (B.C0 P Rx alpha * B.nu * (1 - B.nu) *
        B.L_w P Rx alpha C_old / B.L_w P Rx alpha C) < 1 := by
      rw [Real.sqrt_lt' one_pos]
      nlinarith
    have h1gw : 1 - B.gamma_w ≤ 1 := by linarith
    have := mul_le_of_le_one_left (Real.sqrt_nonneg (B.C0 P Rx alpha * B.nu *
      (1 - B.nu) * B.L_w P Rx alpha C_old / B.L_w P Rx alpha C)) h1gw
    linarith
  · rw [Real.sqrt_lt' one_pos]
    nlinarith

/-- C2 witness: concrete admissible inputs with a constant Lipschitz
primitive. -/
theorem get_coefficients_ranges_witness :
    (0 : ℝ) < 2 ∧
    Pid.lipschitz Coldex (Pid.spectral_norm_extracted Rxex 1 1) ≤
      Pid.lipschitz Cex (Pid.spectral_norm_extracted Rxex 1 1) ∧
    (0 < (Bex.get_coefficients Pid Rxex 2 Cex Coldex).1 ∧
      (Bex.get_coefficients Pid Rxex 2 Cex Coldex).1 <
        1 / Bex.L_w Pid Rxex 2 Cex ∧
      0 < (Bex.get_coefficients Pid Rxex 2 Cex Coldex).2.2.1 ∧
      0 ≤ (Bex.get_coefficients Pid Rxex 2 Cex Coldex).2.1 ∧
      (Bex.get_coefficients Pid Rxex 2 Cex Coldex).2.1 < 1 ∧
      0 ≤ (Bex.get_coefficients Pid Rxex 2 Cex Coldex).2.2.2 ∧
      (Bex.get_coefficients Pid Rxex 2 Cex Coldex).2.2.2 < 1) :=
  ⟨by norm_num, le_refl _,
    get_coefficients_ranges Bex Pid Rxex 2 Cex Coldex (by norm_num) (le_refl 1)
      (by norm_num [Bex]) (by norm_num [Bex]) (by norm_num [Bex]) (by norm_num [Bex])
      (by norm_num [Bex]) (by norm_num [Bex]) (by norm_num [Pid]) (by norm_num [Pid])
      (by norm_num [Pid]) (le_refl _)⟩

end UTitan

end
